import Mathlib

/-!
Shallow embedding of the movie-review record store
(`src/program/src/state.rs` and `src/program/src/processor.rs`).

Modelling conventions:
* Byte slices (`&[u8]`, account data) are `List Nat`, each element a byte value.
* Rust `String`s appear in the program only through `as_bytes()`, `len()` and
  borsh (de)serialization, all of which act on the UTF-8 byte content; a string
  is therefore modelled by its byte content (`List Nat`).
* `Pubkey` (32 bytes) is modelled as a byte list; where a claim needs the
  fixed width it is an explicit hypothesis (`length = 32`).
* borsh encoding, as derived for `MovieAccountState`
  (`bool` = one byte 0/1, `Pubkey` = 32 raw bytes, `u8` = one byte,
  `String` = 4-byte little-endian length prefix followed by the bytes), is
  embedded by `MovieAccountState.serialize` / `MovieAccountState.deserialize`;
  `try_from_slice` additionally requires the whole slice to be consumed,
  as borsh's `try_from_slice` does.
* Each processor entry point is state-passing: it returns the final byte
  content of the review (PDA) account together with `none` on success or
  `some e` for the error `e` it returns.  The source mutates the account
  data only in the final `serialize` call, so every early `return Err(..)`
  yields the input data unchanged.
-/

namespace MovieReview

/-- A byte slice: list of byte values. -/
abbrev Bytes := List Nat

/-- The struct `MovieAccountState` from `src/program/src/state.rs` (field for field;
strings and the `Pubkey` are modelled by their byte content). -/
structure MovieAccountState where
  is_initialized : Bool
  reviewer : Bytes
  rating : Nat
  title : Bytes
  description : Bytes
deriving DecidableEq, Repr

/-- Little-endian 4-byte encoding of a length, as borsh writes `u32` string
length prefixes. -/
def u32le (n : Nat) : Bytes :=
  [n % 256, n / 256 % 256, n / 65536 % 256, n / 16777216 % 256]

/-- Value of a 4-byte little-endian `u32`. -/
def decodeU32 (b0 b1 b2 b3 : Nat) : Nat :=
  b0 + 256 * b1 + 65536 * b2 + 16777216 * b3

/-- borsh serialization of `MovieAccountState`, derived field order:
flag byte, 32-byte reviewer, rating byte, length-prefixed title,
length-prefixed description. -/
def MovieAccountState.serialize (r : MovieAccountState) : Bytes :=
  (if r.is_initialized then [1] else [0]) ++ r.reviewer ++ [r.rating]
    ++ u32le r.title.length ++ r.title
    ++ u32le r.description.length ++ r.description

/-- The function `MovieAccountState::get_account_size` from `src/program/src/state.rs`:
`1 + 32 + 1 + (4 + title.len()) + (4 + description.len())`. -/
def MovieAccountState.get_account_size (title description : Bytes) : Nat :=
  1 + 32 + 1 + (4 + title.length) + (4 + description.length)

/-- borsh reader for `bool`: one byte, `0` or `1`; anything else fails. -/
def readBool : Bytes → Option (Bool × Bytes)
  | 0 :: rest => some (false, rest)
  | 1 :: rest => some (true, rest)
  | _ => none

/-- borsh reader for `u8`: one byte. -/
def readByte : Bytes → Option (Nat × Bytes)
  | b :: rest => some (b, rest)
  | [] => none

/-- borsh reader for a fixed-width field of `n` raw bytes (e.g. a `Pubkey`). -/
def readBytes (n : Nat) (bs : Bytes) : Option (Bytes × Bytes) :=
  if n ≤ bs.length then some (bs.take n, bs.drop n) else none

/-- borsh reader for a `u32` length prefix (little-endian). -/
def readU32 : Bytes → Option (Nat × Bytes)
  | b0 :: b1 :: b2 :: b3 :: rest => some (decodeU32 b0 b1 b2 b3, rest)
  | _ => none

/-- borsh reader for a `String`: `u32` length prefix, then that many bytes. -/
def readString (bs : Bytes) : Option (Bytes × Bytes) :=
  (readU32 bs).bind fun p => readBytes p.1 p.2

/-- borsh `deserialize` for `MovieAccountState`: parses a prefix of the slice
and returns the record with the unconsumed remainder. -/
def MovieAccountState.deserialize (bs : Bytes) :
    Option (MovieAccountState × Bytes) :=
  (readBool bs).bind fun p1 =>
  (readBytes 32 p1.2).bind fun p2 =>
  (readByte p2.2).bind fun p3 =>
  (readString p3.2).bind fun p4 =>
  (readString p4.2).bind fun p5 =>
  some (⟨p1.1, p2.1, p3.1, p4.1, p5.1⟩, p5.2)

/-- borsh `MovieAccountState::try_from_slice`: deserialize and require the
whole slice to be consumed (borsh rejects trailing bytes). -/
def MovieAccountState.try_from_slice (bs : Bytes) : Option MovieAccountState :=
  (MovieAccountState.deserialize bs).bind fun p =>
    if p.2 = [] then some p.1 else none

/-- The errors the processor can return (`ProgramError` and `ReviewError`
variants used in `src/program/src/processor.rs`; `ReviewError` variants keep
their names, converted `Into<ProgramError>` as in the source).
`SerializeError` stands for the I/O error of a final `serialize` call that
does not fit the account buffer; `InvalidInstructionData` for an
instruction byte string `unpack` rejects. -/
inductive ProgErr where
  | MissingRequiredSignature
  | InvalidPDA
  | AccountAlreadyInitialized
  | InvalidAccountData
  | InvalidRating
  | InvalidDataLength
  | UninitializedAccount
  | IllegalOwner
  | BorshIoError
  | SerializeError
  | InvalidInstructionData
deriving DecidableEq, Repr

/-- The fields of `AccountInfo` the processor reads: address, signer flag,
owning program, data. -/
structure AccountInfo where
  key : Bytes
  is_signer : Bool
  owner : Bytes
  data : Bytes
deriving DecidableEq, Repr

/-- The address-derivation function `Pubkey::find_program_address` (a SHA-256
based host primitive), abstracted: it maps the seed pair
(initializer key, title bytes) to an address.  The `program_id` argument and
the bump byte play no role in any claim, so the theorems quantify over an
arbitrary derivation function of the seeds actually passed in the source. -/
abbrev DeriveFn := Bytes → Bytes → Bytes

/-- The fixed account capacity `account_len` used by `add_movie_review`. -/
def account_len : Nat := 1000

/-- Overwrite the front of buffer `d` with `s`, as serializing into
`&mut data[..]` does: bytes of `d` beyond `s` are untouched; if `s` is longer
than `d` only the part that fits lands (the write then fails). -/
def overwrite (s d : Bytes) : Bytes :=
  s.take d.length ++ d.drop s.length

/-- The function `add_movie_review` from `src/program/src/processor.rs`, translated check
for check.  The `invoke_signed(create_account ..)` call is a host allocation
(spec §6): it is modelled as zero-filling a fresh slot of the fixed capacity,
after which `serialize` writes the record into its front.  Returns the final
review-account bytes and the error, if any. -/
def add_movie_review (derive : DeriveFn) (_program_id : Bytes)
    (initializer pda_account : AccountInfo)
    (title : Bytes) (rating : Nat) (description : Bytes) :
    Bytes × Option ProgErr :=
  -- Validate signer
  if initializer.is_signer = false then
    (pda_account.data, some ProgErr.MissingRequiredSignature)
  -- Derive and validate PDA
  else if derive initializer.key title ≠ pda_account.key then
    (pda_account.data, some ProgErr.InvalidPDA)
  else
    -- Check if account already exists and is initialized
    let slotCheck : Option ProgErr :=
      if pda_account.data = [] then none
      else
        match MovieAccountState.try_from_slice pda_account.data with
        | some account_data =>
          if account_data.is_initialized then
            some ProgErr.AccountAlreadyInitialized
          else none
        | none => some ProgErr.InvalidAccountData
    match slotCheck with
    | some e => (pda_account.data, some e)
    | none =>
      -- Validate rating
      if rating > 5 ∨ rating < 1 then
        (pda_account.data, some ProgErr.InvalidRating)
      else
        let total_len := MovieAccountState.get_account_size title description
        if total_len > account_len then
          (pda_account.data, some ProgErr.InvalidDataLength)
        else
          -- invoke_signed(create_account ..): allocate a zeroed slot of
          -- account_len bytes, then serialize the new record into it
          let account_data : MovieAccountState :=
            ⟨true, initializer.key, rating, title, description⟩
          let bytes := MovieAccountState.serialize account_data
          (bytes ++ List.replicate (account_len - bytes.length) 0, none)

/-- The function `update_movie_review` from `src/program/src/processor.rs`, translated
check for check.  The final `serialize` into `&mut data[..]` succeeds when the
serialized record fits the existing buffer and otherwise fails after writing
the part that fits. -/
def update_movie_review (derive : DeriveFn) (program_id : Bytes)
    (initializer pda_account : AccountInfo)
    (title : Bytes) (rating : Nat) (description : Bytes) :
    Bytes × Option ProgErr :=
  -- Validate account ownership and signer
  if pda_account.owner ≠ program_id then
    (pda_account.data, some ProgErr.IllegalOwner)
  else if initializer.is_signer = false then
    (pda_account.data, some ProgErr.MissingRequiredSignature)
  else
    -- Deserialize account data (`?` propagates the borsh error)
    match MovieAccountState.try_from_slice pda_account.data with
    | none => (pda_account.data, some ProgErr.BorshIoError)
    | some account_data =>
      -- Validate PDA (seeds: initializer key, *stored* title)
      if derive initializer.key account_data.title ≠ pda_account.key then
        (pda_account.data, some ProgErr.InvalidPDA)
      -- Check account initialization
      else if account_data.is_initialized = false then
        (pda_account.data, some ProgErr.UninitializedAccount)
      -- Validate rating
      else if rating > 5 ∨ rating < 1 then
        (pda_account.data, some ProgErr.InvalidRating)
      -- Check data length (note: uses the caller-supplied title)
      else if MovieAccountState.get_account_size title description > 1000 then
        (pda_account.data, some ProgErr.InvalidDataLength)
      else
        -- Update account data and serialize into the same buffer
        let updated : MovieAccountState :=
          { account_data with rating := rating, description := description }
        let bytes := MovieAccountState.serialize updated
        if bytes.length ≤ pda_account.data.length then
          (overwrite bytes pda_account.data, none)
        else
          (overwrite bytes pda_account.data, some ProgErr.SerializeError)

/-- The instruction type matched by `process_instruction`.  `instruction.rs`
is not part of the sources; the single-arm `match` in
`src/program/src/processor.rs` (lines 24–30) is exhaustive, so
`MovieInstruction` has exactly the `AddMovieReview` variant. -/
inductive MovieInstruction where
  | AddMovieReview (title : Bytes) (rating : Nat) (description : Bytes)
deriving Repr

/-- Modelled from the spec: `MovieInstruction::unpack` lives in the missing
`instruction.rs`.  Per spec §6 the wire encoding is a 1-byte operation
discriminant followed by the borsh payload (length-prefixed title, rating
byte, length-prefixed description); discriminant 0 is `AddRecord`.  Only the
variant that exists in the enum (see `MovieInstruction`) can be produced;
any other discriminant is rejected. -/
def MovieInstruction.unpack (bs : Bytes) : Option MovieInstruction :=
  match bs with
  | [] => none
  | variant :: rest =>
    if variant = 0 then
      match readString rest with
      | none => none
      | some (title, r1) =>
        match readByte r1 with
        | none => none
        | some (rating, r2) =>
          match readString r2 with
          | none => none
          | some (description, r3) =>
            if r3 = [] then
              some (MovieInstruction.AddMovieReview title rating description)
            else none
    else none

/-- The function `process_instruction` from `src/program/src/processor.rs`: unpack the
instruction and route it.  The accounts slice is passed as the three
accounts `add_movie_review` extracts from it. -/
def process_instruction (derive : DeriveFn) (program_id : Bytes)
    (initializer pda_account _system_program : AccountInfo)
    (instruction_data : Bytes) : Bytes × Option ProgErr :=
  match MovieInstruction.unpack instruction_data with
  | none => (pda_account.data, some ProgErr.InvalidInstructionData)
  | some (MovieInstruction.AddMovieReview title rating description) =>
    add_movie_review derive program_id initializer pda_account
      title rating description

/-- Spec-side definition (from spec §4.2, Operation Create, "Preconditions /
validation, in order, first failure wins"): 1. missing signer proof —
`Unauthorized` (`MissingRequiredSignature`); 2. supplied slot differs from the
derived address — `AddressMismatch` (`InvalidPDA`); 3. non-empty slot that
fails to decode — `CorruptState` (`InvalidAccountData`), decodes initialized —
`AlreadyInitialized`; 4. rating outside `[1,5]` — `InvalidRating`;
5. `accountSize(title, description) > 1000` — `RecordTooLarge`
(`InvalidDataLength`); otherwise no validation error. -/
def createSpecLateError (title : Bytes) (rating : Nat) (description : Bytes) :
    Option ProgErr :=
  if ¬(1 ≤ rating ∧ rating ≤ 5) then
    some ProgErr.InvalidRating
  else if MovieAccountState.get_account_size title description > 1000 then
    some ProgErr.InvalidDataLength
  else none

/-- Spec-side definition, continued: the full ordered validation of Create
(spec §4.2), probing the slot as the 3-way variant of spec §9
(`Empty | ValidUninitialized | Invalid`). -/
def createSpecError (derive : DeriveFn) (initializer pda_account : AccountInfo)
    (title : Bytes) (rating : Nat) (description : Bytes) : Option ProgErr :=
  if initializer.is_signer = false then
    some ProgErr.MissingRequiredSignature
  else if derive initializer.key title ≠ pda_account.key then
    some ProgErr.InvalidPDA
  else if pda_account.data = [] then
    createSpecLateError title rating description
  else
    match MovieAccountState.try_from_slice pda_account.data with
    | none => some ProgErr.InvalidAccountData
    | some r =>
      if r.is_initialized = true then some ProgErr.AccountAlreadyInitialized
      else createSpecLateError title rating description

/-- A slot is in a good state when any record it decodes to is initialized
with a rating in `[1,5]`. -/
def slotGood (d : Bytes) : Prop :=
  ∀ r, MovieAccountState.try_from_slice d = some r →
    r.is_initialized = true ∧ 1 ≤ r.rating ∧ r.rating ≤ 5

/-- Slot contents reachable from `d₀` by sequences of successful Create and
Update operations, with arbitrary callers, arguments and derivation
functions.  The host guarantees identities are 32 bytes wide (spec §3,
"owner: Identity (fixed-width, e.g. 32 bytes)"), so steps carry that fact
about the caller key. -/
inductive Reach : Bytes → Bytes → Prop where
  | refl (d : Bytes) : Reach d d
  | createStep (d₀ d' : Bytes) (derive : DeriveFn) (pid : Bytes)
      (ini pda : AccountInfo) (t : Bytes) (rat : Nat) (desc : Bytes) :
      Reach d₀ pda.data → ini.key.length = 32 →
      add_movie_review derive pid ini pda t rat desc = (d', none) →
      Reach d₀ d'
  | updateStep (d₀ d' : Bytes) (derive : DeriveFn) (pid : Bytes)
      (ini pda : AccountInfo) (t : Bytes) (rat : Nat) (desc : Bytes) :
      Reach d₀ pda.data → ini.key.length = 32 →
      update_movie_review derive pid ini pda t rat desc = (d', none) →
      Reach d₀ d'

/-! Concrete fixtures used by witnesses and counterexamples. -/

/-- A 32-byte caller identity. -/
def okey : Bytes := List.replicate 32 2

/-- A signing caller account. -/
def sampleIni : AccountInfo := ⟨okey, true, [], []⟩

/-- A derivation function mapping every seed pair to address `[5]`. -/
def dOne : DeriveFn := fun _ _ => [5]

/-- A stored record: initialized, owner `okey`, rating 2, one-byte title and
description. -/
def storedRec : MovieAccountState := ⟨true, okey, 2, [10], [11]⟩

/-- The serialized bytes of `storedRec` (44 bytes). -/
def slotBytes : Bytes := MovieAccountState.serialize storedRec

/-- A review account at address `[5]`, owned by program `[9]`, holding
`slotBytes`. -/
def samplePda : AccountInfo := ⟨[5], false, [9], slotBytes⟩

/-- A stored record with empty title and description (serializes to 42
bytes). -/
def c2Stored : MovieAccountState := ⟨true, okey, 3, [], []⟩

/-- A review account holding `c2Stored`'s serialization. -/
def c2Pda : AccountInfo := ⟨[5], false, [9], MovieAccountState.serialize c2Stored⟩

/-- An uninitialized stored record (flag false). -/
def uninitRec : MovieAccountState := ⟨false, okey, 2, [10], [11]⟩

/-- A review account holding `uninitRec`'s serialization. -/
def uninitPda : AccountInfo := ⟨[5], false, [9], MovieAccountState.serialize uninitRec⟩

/-- A non-signing caller account. -/
def noSigIni : AccountInfo := ⟨okey, false, [], []⟩

/-- A review account at address `[5]`, owned by program `[9]`, with empty
data. -/
def pdaEmpty : AccountInfo := ⟨[5], false, [9], []⟩

/-- The slot bytes a successful concrete Create writes: a serialized record
padded with zeros to the fixed capacity. -/
def createdBytes : Bytes :=
  MovieAccountState.serialize ⟨true, okey, 4, [10], [11]⟩ ++
    List.replicate (account_len -
      (MovieAccountState.serialize ⟨true, okey, 4, [10], [11]⟩).length) 0

/-! Helper lemmas about the borsh readers. -/

theorem readBool_flag_append (flag : Bool) (rest : Bytes) :
    readBool ((if flag then [1] else [0]) ++ rest) = some (flag, rest) := by
  cases flag <;> rfl

theorem readBytes_append (n : Nat) (xs ys : Bytes) (h : xs.length = n) :
    readBytes n (xs ++ ys) = some (xs, ys) := by
  subst h
  simp [readBytes, List.take_left, List.drop_left]

theorem readByte_cons (b : Nat) (rest : Bytes) :
    readByte (b :: rest) = some (b, rest) := rfl

theorem readU32_cons (b0 b1 b2 b3 : Nat) (rest : Bytes) :
    readU32 (b0 :: b1 :: b2 :: b3 :: rest) =
      some (decodeU32 b0 b1 b2 b3, rest) := rfl

theorem decodeU32_u32le (n : Nat) (h : n < 4294967296) :
    decodeU32 (n % 256) (n / 256 % 256) (n / 65536 % 256)
      (n / 16777216 % 256) = n := by
  unfold decodeU32
  omega

theorem readString_append (xs ys : Bytes) (h : xs.length < 4294967296) :
    readString (u32le xs.length ++ (xs ++ ys)) = some (xs, ys) := by
  have h1 : u32le xs.length ++ (xs ++ ys)
      = xs.length % 256 :: xs.length / 256 % 256 :: xs.length / 65536 % 256 ::
        xs.length / 16777216 % 256 :: (xs ++ ys) := rfl
  rw [readString, h1, readU32_cons, decodeU32_u32le _ h]
  simp only [Option.some_bind]
  exact readBytes_append _ xs ys rfl

/-- Parsing a serialized record consumes exactly its bytes and returns the
record (for records with a 32-byte owner and representable lengths). -/
theorem deserialize_serialize_append (r : MovieAccountState) (tail : Bytes)
    (hrev : r.reviewer.length = 32)
    (ht : r.title.length < 4294967296)
    (hd : r.description.length < 4294967296) :
    MovieAccountState.deserialize (MovieAccountState.serialize r ++ tail) =
      some (r, tail) := by
  obtain ⟨flag, owner, rating, title, descr⟩ := r
  simp only [MovieAccountState.serialize, MovieAccountState.deserialize,
    List.append_assoc]
  rw [readBool_flag_append]
  simp only [Option.some_bind]
  rw [readBytes_append 32 owner _ hrev]
  simp only [Option.some_bind, List.singleton_append]
  rw [readByte_cons]
  simp only [Option.some_bind]
  rw [readString_append title _ ht]
  simp only [Option.some_bind]
  rw [readString_append descr _ hd]
  simp only [Option.some_bind]

theorem try_from_slice_serialize (r : MovieAccountState)
    (hrev : r.reviewer.length = 32)
    (ht : r.title.length < 4294967296)
    (hd : r.description.length < 4294967296) :
    MovieAccountState.try_from_slice (MovieAccountState.serialize r) =
      some r := by
  have h := deserialize_serialize_append r [] hrev ht hd
  rw [List.append_nil] at h
  simp [MovieAccountState.try_from_slice, h]

/-- Whatever `try_from_slice` accepts on a buffer that starts with a
serialized record is that record. -/
theorem try_from_slice_serialize_append (rec q : MovieAccountState)
    (tail : Bytes) (hrev : rec.reviewer.length = 32)
    (ht : rec.title.length < 4294967296)
    (hd : rec.description.length < 4294967296)
    (h : MovieAccountState.try_from_slice
      (MovieAccountState.serialize rec ++ tail) = some q) :
    q = rec := by
  have hde := deserialize_serialize_append rec tail hrev ht hd
  rw [MovieAccountState.try_from_slice, hde] at h
  simp only [Option.some_bind] at h
  split at h
  · exact (Option.some.inj h).symm
  · exact absurd h (by simp)

theorem readBool_length {bs : Bytes} {p : Bool × Bytes}
    (h : readBool bs = some p) : p.2.length ≤ bs.length := by
  unfold readBool at h
  split at h
  · cases h; simp
  · cases h; simp
  · exact absurd h (by simp)

theorem readBytes_shape {n : Nat} {bs : Bytes} {p : Bytes × Bytes}
    (h : readBytes n bs = some p) :
    p.1.length = n ∧ p.1.length ≤ bs.length ∧ p.2.length ≤ bs.length := by
  unfold readBytes at h
  split at h
  · rename_i hn
    cases h
    refine ⟨?_, ?_, ?_⟩ <;> simp only [List.length_take, List.length_drop] <;>
      omega
  · exact absurd h (by simp)

theorem readByte_length {bs : Bytes} {p : Nat × Bytes}
    (h : readByte bs = some p) : p.2.length ≤ bs.length := by
  unfold readByte at h
  split at h
  · cases h; simp
  · exact absurd h (by simp)

theorem readU32_length {bs : Bytes} {p : Nat × Bytes}
    (h : readU32 bs = some p) : p.2.length ≤ bs.length := by
  unfold readU32 at h
  split at h
  · cases h; simp only [List.length_cons]; omega
  · exact absurd h (by simp)

theorem readString_shape {bs : Bytes} {p : Bytes × Bytes}
    (h : readString bs = some p) :
    p.1.length ≤ bs.length ∧ p.2.length ≤ bs.length := by
  rw [readString] at h
  cases hu : readU32 bs with
  | none => rw [hu] at h; exact absurd h (by simp)
  | some q =>
    rw [hu] at h
    simp only [Option.some_bind] at h
    have hq := readU32_length hu
    have hb := readBytes_shape h
    exact ⟨le_trans hb.2.1 hq, le_trans hb.2.2 hq⟩

/-- A record parsed out of a buffer has a 32-byte owner and title and
description no longer than the buffer. -/
theorem deserialize_shape {bs : Bytes} {p : MovieAccountState × Bytes}
    (h : MovieAccountState.deserialize bs = some p) :
    p.1.reviewer.length = 32 ∧ p.1.title.length ≤ bs.length ∧
      p.1.description.length ≤ bs.length := by
  rw [MovieAccountState.deserialize] at h
  cases h1 : readBool bs with
  | none => rw [h1] at h; exact absurd h (by simp)
  | some p1 =>
    rw [h1] at h; simp only [Option.some_bind] at h
    cases h2 : readBytes 32 p1.2 with
    | none => rw [h2] at h; exact absurd h (by simp)
    | some p2 =>
      rw [h2] at h; simp only [Option.some_bind] at h
      cases h3 : readByte p2.2 with
      | none => rw [h3] at h; exact absurd h (by simp)
      | some p3 =>
        rw [h3] at h; simp only [Option.some_bind] at h
        cases h4 : readString p3.2 with
        | none => rw [h4] at h; exact absurd h (by simp)
        | some p4 =>
          rw [h4] at h; simp only [Option.some_bind] at h
          cases h5 : readString p4.2 with
          | none => rw [h5] at h; exact absurd h (by simp)
          | some p5 =>
            rw [h5] at h; simp only [Option.some_bind] at h
            cases h
            have l1 := readBool_length h1
            have l2 := (readBytes_shape h2).2.2
            have l3 := readByte_length h3
            have l4 := readString_shape h4
            have l5 := readString_shape h5
            refine ⟨(readBytes_shape h2).1, ?_, ?_⟩ <;> dsimp only <;> omega

theorem try_from_slice_inv {bs : Bytes} {r : MovieAccountState}
    (h : MovieAccountState.try_from_slice bs = some r) :
    MovieAccountState.deserialize bs = some (r, []) := by
  rw [MovieAccountState.try_from_slice] at h
  cases hd : MovieAccountState.deserialize bs with
  | none => rw [hd] at h; exact absurd h (by simp)
  | some p =>
    rw [hd] at h; simp only [Option.some_bind] at h
    split at h
    · cases h
      rename_i hnil
      rw [← hnil]
    · exact absurd h (by simp)

theorem try_from_slice_shape {bs : Bytes} {r : MovieAccountState}
    (h : MovieAccountState.try_from_slice bs = some r) :
    r.reviewer.length = 32 ∧ r.title.length ≤ bs.length ∧
      r.description.length ≤ bs.length :=
  deserialize_shape (try_from_slice_inv h)


theorem serialize_length (r : MovieAccountState) (hrev : r.reviewer.length = 32) :
    (MovieAccountState.serialize r).length =
      MovieAccountState.get_account_size r.title r.description := by
  unfold MovieAccountState.serialize MovieAccountState.get_account_size u32le
  cases hb : r.is_initialized <;>
    simp [List.length_append, hrev] <;> omega

theorem add_cases (derive : DeriveFn) (pid : Bytes) (ini pda : AccountInfo)
    (t : Bytes) (rat : Nat) (d : Bytes) :
    (∃ e, (add_movie_review derive pid ini pda t rat d) = (pda.data, some e)) ∨
    add_movie_review derive pid ini pda t rat d =
      (MovieAccountState.serialize ⟨true, ini.key, rat, t, d⟩ ++
        List.replicate (account_len -
          (MovieAccountState.serialize ⟨true, ini.key, rat, t, d⟩).length) 0,
        none) := by
  rw [add_movie_review]
  dsimp only
  repeat' split
  all_goals first
    | exact Or.inl ⟨_, rfl⟩
    | exact Or.inr rfl

theorem update_cases (derive : DeriveFn) (pid : Bytes) (ini pda : AccountInfo)
    (t : Bytes) (rat : Nat) (d : Bytes) :
    (∃ e, e ≠ ProgErr.SerializeError ∧
      update_movie_review derive pid ini pda t rat d = (pda.data, some e)) ∨
    (update_movie_review derive pid ini pda t rat d).2 = none ∨
    (update_movie_review derive pid ini pda t rat d).2 =
      some ProgErr.SerializeError := by
  rw [update_movie_review]
  dsimp only
  repeat' split
  all_goals first
    | exact Or.inl ⟨_, by decide, rfl⟩
    | exact Or.inr (Or.inl rfl)
    | exact Or.inr (Or.inr rfl)

theorem update_success_inv (derive : DeriveFn) (pid : Bytes)
    (ini pda : AccountInfo) (t : Bytes) (rat : Nat) (d : Bytes)
    (h : (update_movie_review derive pid ini pda t rat d).2 = none) :
    ∃ stored : MovieAccountState,
      MovieAccountState.try_from_slice pda.data = some stored ∧
      pda.owner = pid ∧ ini.is_signer = true ∧
      derive ini.key stored.title = pda.key ∧
      stored.is_initialized = true ∧ 1 ≤ rat ∧ rat ≤ 5 ∧
      MovieAccountState.get_account_size t d ≤ 1000 ∧
      (MovieAccountState.serialize
        { stored with rating := rat, description := d }).length ≤
        pda.data.length ∧
      update_movie_review derive pid ini pda t rat d =
        (overwrite (MovieAccountState.serialize
          { stored with rating := rat, description := d }) pda.data, none) := by
  rw [update_movie_review] at h
  dsimp only at h
  split at h
  · simp at h
  · split at h
    · simp at h
    · rename_i howner hsig
      split at h
      · simp at h
      · rename_i stored hstored
        split at h
        · simp at h
        · rename_i hpda
          split at h
          · simp at h
          · rename_i hinit
            split at h
            · simp at h
            · rename_i hrat
              split at h
              · simp at h
              · rename_i hsize
                split at h
                · rename_i hfits
                  refine ⟨stored, hstored, ?_, ?_, ?_, ?_, ?_, ?_, ?_, hfits, ?_⟩
                  · exact not_ne_iff.mp howner
                  · simpa using hsig
                  · exact not_ne_iff.mp hpda
                  · simpa using hinit
                  · omega
                  · omega
                  · omega
                  · have hinit2 : stored.is_initialized = true := by
                      simpa using hinit
                    have hrat2 : ¬(5 < rat ∨ rat = 0) := by omega
                    have hfits2 : (MovieAccountState.serialize
                        { is_initialized := true, reviewer := stored.reviewer,
                          rating := rat, title := stored.title,
                          description := d }).length ≤ pda.data.length := by
                      rw [← hinit2]; exact hfits
                    rw [update_movie_review]
                    dsimp only
                    simp [howner, hsig, hstored, hpda, hinit, hsize, hrat2,
                      hfits2]
                · simp at h

theorem add_snd_eq_spec (derive : DeriveFn) (pid : Bytes)
    (ini pda : AccountInfo) (t : Bytes) (rat : Nat) (d : Bytes) :
    (add_movie_review derive pid ini pda t rat d).2 =
      createSpecError derive ini pda t rat d := by
  simp only [add_movie_review, createSpecError, createSpecLateError]
  by_cases hs : ini.is_signer = false
  · simp [hs]
  · by_cases hp : derive ini.key t ≠ pda.key
    · simp [hs, hp]
    · by_cases hdata : pda.data = []
      · by_cases hrat : rat > 5 ∨ rat < 1
        · have hr2 : ¬(1 ≤ rat ∧ rat ≤ 5) := by omega
          have hr3 : 5 < rat ∨ rat = 0 := by omega
          simp [hs, hp, hdata, hrat, hr2, hr3]
        · have hr2 : 1 ≤ rat ∧ rat ≤ 5 := by omega
          have hr3 : ¬(5 < rat ∨ rat = 0) := by omega
          by_cases hsz : MovieAccountState.get_account_size t d > 1000
          · have hsz2 : account_len < MovieAccountState.get_account_size t d := hsz
            simp [hs, hp, hdata, hrat, hr2, hr3, hsz, hsz2]
          · have hsz2 : ¬(account_len < MovieAccountState.get_account_size t d) := hsz
            simp [hs, hp, hdata, hrat, hr2, hr3, hsz, hsz2]
      · cases htf : MovieAccountState.try_from_slice pda.data with
        | none => simp [hs, hp, hdata, htf]
        | some r =>
          by_cases hinit : r.is_initialized = true
          · simp [hs, hp, hdata, htf, hinit]
          · by_cases hrat : rat > 5 ∨ rat < 1
            · have hr2 : ¬(1 ≤ rat ∧ rat ≤ 5) := by omega
              have hr3 : 5 < rat ∨ rat = 0 := by omega
              simp [hs, hp, hdata, htf, hinit, hrat, hr2, hr3]
            · have hr2 : 1 ≤ rat ∧ rat ≤ 5 := by omega
              have hr3 : ¬(5 < rat ∨ rat = 0) := by omega
              by_cases hsz : MovieAccountState.get_account_size t d > 1000
              · have hsz2 : account_len < MovieAccountState.get_account_size t d := hsz
                simp [hs, hp, hdata, htf, hinit, hrat, hr2, hr3, hsz, hsz2]
              · have hsz2 : ¬(account_len < MovieAccountState.get_account_size t d) := hsz
                simp [hs, hp, hdata, htf, hinit, hrat, hr2, hr3, hsz, hsz2]

theorem try_from_slice_nil : MovieAccountState.try_from_slice [] = none := rfl

theorem createSpecError_none (derive : DeriveFn) (ini pda : AccountInfo)
    (t : Bytes) (rat : Nat) (d : Bytes)
    (h : createSpecError derive ini pda t rat d = none) :
    ini.is_signer = true ∧ derive ini.key t = pda.key ∧
    1 ≤ rat ∧ rat ≤ 5 ∧ MovieAccountState.get_account_size t d ≤ 1000 := by
  simp only [createSpecError, createSpecLateError] at h
  split at h
  · simp at h
  · split at h
    · simp at h
    · rename_i hs hp
      refine ⟨by simpa using hs, not_ne_iff.mp hp, ?_⟩
      split at h
      · split at h
        · simp at h
        · split at h
          · simp at h
          · rename_i hrat hsz
            have := not_not.mp hrat
            omega
      · split at h
        · simp at h
        · split at h
          · simp at h
          · split at h
            · simp at h
            · split at h
              · simp at h
              · rename_i hrat hsz
                have := not_not.mp hrat
                omega

theorem add_success_inv (derive : DeriveFn) (pid : Bytes)
    (ini pda : AccountInfo) (t : Bytes) (rat : Nat) (d : Bytes)
    (h : (add_movie_review derive pid ini pda t rat d).2 = none) :
    ini.is_signer = true ∧ derive ini.key t = pda.key ∧
    1 ≤ rat ∧ rat ≤ 5 ∧ MovieAccountState.get_account_size t d ≤ 1000 ∧
    add_movie_review derive pid ini pda t rat d =
      (MovieAccountState.serialize ⟨true, ini.key, rat, t, d⟩ ++
        List.replicate (account_len -
          (MovieAccountState.serialize ⟨true, ini.key, rat, t, d⟩).length) 0,
        none) := by
  have hspec := add_snd_eq_spec derive pid ini pda t rat d
  rw [h] at hspec
  obtain ⟨h1, h2, h3, h4, h5⟩ := createSpecError_none derive ini pda t rat d hspec.symm
  refine ⟨h1, h2, h3, h4, h5, ?_⟩
  rcases add_cases derive pid ini pda t rat d with ⟨e, he⟩ | hval
  · rw [he] at h; simp at h
  · exact hval

theorem update_invalidPDA_iff (derive : DeriveFn) (pid : Bytes)
    (ini pda : AccountInfo) (t : Bytes) (rat : Nat) (d : Bytes) :
    (update_movie_review derive pid ini pda t rat d).2 =
        some ProgErr.InvalidPDA ↔
      (pda.owner = pid ∧ ini.is_signer = true ∧
        ∃ stored, MovieAccountState.try_from_slice pda.data = some stored ∧
          derive ini.key stored.title ≠ pda.key) := by
  rw [update_movie_review]
  dsimp only
  by_cases ho : pda.owner ≠ pid
  · simp [ho]
  · have ho2 : pda.owner = pid := not_ne_iff.mp ho
    by_cases hsig : ini.is_signer = false
    · simp [ho, ho2, hsig]
    · have hsig2 : ini.is_signer = true := by simpa using hsig
      cases htf : MovieAccountState.try_from_slice pda.data with
      | none => simp [ho, ho2, hsig, hsig2, htf]
      | some stored =>
        by_cases hd : derive ini.key stored.title ≠ pda.key
        · simp [ho, ho2, hsig, hsig2, htf, hd]
        · simp only [ho, ho2, hsig, hsig2, htf, hd, if_neg, if_pos,
            not_false_eq_true, if_false]
          constructor
          · intro hcontra
            repeat' split at hcontra <;> simp_all
          · rintro ⟨-, -, stored2, hst2, hne2⟩
            cases hst2
            exact absurd hne2 hd

theorem overwrite_of_fits (s dbuf : Bytes) (h : s.length ≤ dbuf.length) :
    overwrite s dbuf = s ++ dbuf.drop s.length := by
  unfold overwrite
  rw [List.take_of_length_le h]

theorem overwrite_length (s dbuf : Bytes) (h : s.length ≤ dbuf.length) :
    (overwrite s dbuf).length = dbuf.length := by
  rw [overwrite_of_fits s dbuf h]
  simp
  omega

theorem slotGood_create (derive : DeriveFn) (pid : Bytes)
    (ini pda : AccountInfo) (t : Bytes) (rat : Nat) (d : Bytes) (d' : Bytes)
    (hkey : ini.key.length = 32)
    (hadd : add_movie_review derive pid ini pda t rat d = (d', none)) :
    slotGood d' ∧ d'.length = 1000 := by
  have h2 : (add_movie_review derive pid ini pda t rat d).2 = none := by
    rw [hadd]
  obtain ⟨-, -, hr1, hr5, hsz, hval⟩ :=
    add_success_inv derive pid ini pda t rat d h2
  rw [hadd] at hval
  have hd' : d' = MovieAccountState.serialize ⟨true, ini.key, rat, t, d⟩ ++
      List.replicate (account_len -
        (MovieAccountState.serialize ⟨true, ini.key, rat, t, d⟩).length) 0 :=
    congrArg Prod.fst hval
  have hslen : (MovieAccountState.serialize
      ⟨true, ini.key, rat, t, d⟩).length =
      MovieAccountState.get_account_size t d :=
    serialize_length ⟨true, ini.key, rat, t, d⟩ hkey
  have htd : t.length + d.length ≤ 958 := by
    simp only [MovieAccountState.get_account_size] at hsz
    omega
  constructor
  · intro q hq
    rw [hd'] at hq
    have hq2 := try_from_slice_serialize_append ⟨true, ini.key, rat, t, d⟩ q _
      hkey (by simp only; omega) (by simp only; omega) hq
    rw [hq2]
    exact ⟨rfl, hr1, hr5⟩
  · rw [hd']
    simp only [List.length_append, List.length_replicate]
    rw [hslen]
    simp only [account_len]
    omega

theorem slotGood_update (derive : DeriveFn) (pid : Bytes)
    (ini pda : AccountInfo) (t : Bytes) (rat : Nat) (d : Bytes) (d' : Bytes)
    (hlen : pda.data.length ≤ 1000)
    (hupd : update_movie_review derive pid ini pda t rat d = (d', none)) :
    slotGood d' ∧ d'.length = pda.data.length := by
  have h2 : (update_movie_review derive pid ini pda t rat d).2 = none := by
    rw [hupd]
  obtain ⟨stored, hstored, -, -, -, hinit, hr1, hr5, hsz, hfits, hval⟩ :=
    update_success_inv derive pid ini pda t rat d h2
  rw [hupd] at hval
  have hd' : d' = overwrite (MovieAccountState.serialize
      { stored with rating := rat, description := d }) pda.data :=
    congrArg Prod.fst hval
  have hshape := try_from_slice_shape hstored
  have hdlen : d.length ≤ 958 := by
    simp only [MovieAccountState.get_account_size] at hsz
    omega
  constructor
  · intro q hq
    rw [hd', overwrite_of_fits _ _ hfits] at hq
    have hq2 := try_from_slice_serialize_append
      { stored with rating := rat, description := d } q _
      (by simpa using hshape.1) (by simp only; omega) (by simp only; omega) hq
    rw [hq2]
    refine ⟨?_, hr1, hr5⟩
    simpa using hinit
  · rw [hd']
    exact overwrite_length _ _ hfits

/-- C3: for every title and description, `get_account_size` equals
`1 + 32 + 1 + (4 + title length) + (4 + description length)`, and this is
exactly the byte length `serialize` produces for any record with that title
and description (with its fixed-width 32-byte owner). -/
theorem C3_account_size_matches_serialize (t d : Bytes)
    (r : MovieAccountState) (hrev : r.reviewer.length = 32)
    (ht : r.title = t) (hd : r.description = d) :
    MovieAccountState.get_account_size t d =
      1 + 32 + 1 + (4 + t.length) + (4 + d.length) ∧
    (MovieAccountState.serialize r).length =
      MovieAccountState.get_account_size t d := by
  subst ht
  subst hd
  exact ⟨rfl, serialize_length r hrev⟩

/-- Witness for C3 at a concrete record. -/
theorem C3_account_size_matches_serialize_witness :
    MovieAccountState.get_account_size [10] [11] =
      1 + 32 + 1 + (4 + 1) + (4 + 1) ∧
    (MovieAccountState.serialize storedRec).length =
      MovieAccountState.get_account_size [10] [11] :=
  C3_account_size_matches_serialize [10] [11] storedRec (by decide) rfl rfl

/-- C4: deserializing the serialization of any valid record (32-byte owner,
title and description of representable length) returns that record. -/
theorem C4_round_trip (r : MovieAccountState) (hrev : r.reviewer.length = 32)
    (ht : r.title.length < 4294967296)
    (hd : r.description.length < 4294967296) :
    MovieAccountState.try_from_slice (MovieAccountState.serialize r) =
      some r :=
  try_from_slice_serialize r hrev ht hd

/-- Witness for C4 at a concrete record. -/
theorem C4_round_trip_witness :
    MovieAccountState.try_from_slice (MovieAccountState.serialize storedRec) =
      some storedRec :=
  C4_round_trip storedRec (by decide) (by decide) (by decide)

/-- C5: Create validates in the spec's fixed order with first failure
winning: the error component of `add_movie_review` coincides, for all
inputs, with `createSpecError`, the spec's ordered first-failure selector
(signer, then address, then slot state, then rating bounds, then size
bound). -/
theorem C5_create_validation_order (derive : DeriveFn) (pid : Bytes)
    (ini pda : AccountInfo) (t : Bytes) (rat : Nat) (d : Bytes) :
    (add_movie_review derive pid ini pda t rat d).2 =
      createSpecError derive ini pda t rat d :=
  add_snd_eq_spec derive pid ini pda t rat d

/-- C1: contrary to the claim, `process_instruction` routes no UpdateRecord
request to `update_movie_review`: the exhaustive single-arm match in the
source forces every instruction to be `AddMovieReview`, and an instruction
byte string with any other discriminant (for example 1) is rejected at
`unpack`. -/
theorem C1_update_never_routed :
    (∀ i : MovieInstruction,
      ∃ t rat d, i = MovieInstruction.AddMovieReview t rat d) ∧
    (∀ (derive : DeriveFn) (pid : Bytes) (a b c : AccountInfo)
      (rest : Bytes),
      process_instruction derive pid a b c (1 :: rest) =
        (b.data, some ProgErr.InvalidInstructionData)) := by
  constructor
  · intro i
    obtain ⟨t, rat, d⟩ := i
    exact ⟨t, rat, d, rfl⟩
  · intro derive pid a b c rest
    rfl

set_option maxRecDepth 8000 in
/-- C2: the capacity check of Update uses the caller-supplied title, not the
stored one.  On a slot storing a record with empty title and description
(size 42), an update request carrying a 959-byte title and empty description
fails with `InvalidDataLength` (RecordTooLarge) although
`accountSize(stored title, new description) = 42 ≤ 1000`, contradicting the
claim. -/
theorem C2_size_check_uses_request_title :
    update_movie_review dOne [9] sampleIni c2Pda
        (List.replicate 959 0) 3 [] =
      (c2Pda.data, some ProgErr.InvalidDataLength) ∧
    MovieAccountState.get_account_size c2Stored.title [] ≤ 1000 := by
  constructor
  · decide
  · decide

/-- C6: an invocation of Create or Update that returns a validation error
leaves the slot bytes exactly as they were (every error except the final
serialization I/O failure, which is not a validation check); in particular
Create on a slot holding an initialized record fails with
`AccountAlreadyInitialized` (AlreadyInitialized) without modifying the
slot. -/
theorem C6_no_partial_write_on_validation_error :
    (∀ (derive : DeriveFn) (pid : Bytes) (ini pda : AccountInfo)
        (t : Bytes) (rat : Nat) (d : Bytes) (e : ProgErr),
      (add_movie_review derive pid ini pda t rat d).2 = some e →
      (add_movie_review derive pid ini pda t rat d).1 = pda.data) ∧
    (∀ (derive : DeriveFn) (pid : Bytes) (ini pda : AccountInfo)
        (t : Bytes) (rat : Nat) (d : Bytes) (e : ProgErr),
      e ≠ ProgErr.SerializeError →
      (update_movie_review derive pid ini pda t rat d).2 = some e →
      (update_movie_review derive pid ini pda t rat d).1 = pda.data) ∧
    (∀ (derive : DeriveFn) (pid : Bytes) (ini pda : AccountInfo)
        (t : Bytes) (rat : Nat) (d : Bytes) (r : MovieAccountState),
      MovieAccountState.try_from_slice pda.data = some r →
      r.is_initialized = true →
      ini.is_signer = true →
      derive ini.key t = pda.key →
      add_movie_review derive pid ini pda t rat d =
        (pda.data, some ProgErr.AccountAlreadyInitialized)) := by
  refine ⟨?_, ?_, ?_⟩
  · intro derive pid ini pda t rat d e h
    rcases add_cases derive pid ini pda t rat d with ⟨e2, he⟩ | hval
    · rw [he]
    · rw [hval] at h
      simp at h
  · intro derive pid ini pda t rat d e hne h
    rcases update_cases derive pid ini pda t rat d with
      ⟨e2, hne2, he⟩ | hnone | hser
    · rw [he]
    · rw [h] at hnone
      simp at hnone
    · rw [h] at hser
      cases hser
      exact absurd rfl hne
  · intro derive pid ini pda t rat d r htf hinit hs hp
    have hne : pda.data ≠ [] := by
      intro hnil
      rw [hnil, try_from_slice_nil] at htf
      cases htf
    rw [add_movie_review]
    dsimp only
    simp [hs, hp, hne, htf, hinit]

/-- Witness for C6: a non-signing Create, an invalid-rating Update and a
Create on an initialized slot all leave the concrete slot bytes
untouched. -/
theorem C6_no_partial_write_on_validation_error_witness :
    (add_movie_review dOne [9] noSigIni samplePda [10] 4 [11]).1 =
      samplePda.data ∧
    (update_movie_review dOne [9] sampleIni samplePda [10] 0 [11]).1 =
      samplePda.data ∧
    add_movie_review dOne [9] sampleIni samplePda [10] 4 [11] =
      (samplePda.data, some ProgErr.AccountAlreadyInitialized) :=
  ⟨C6_no_partial_write_on_validation_error.1 dOne [9] noSigIni samplePda
      [10] 4 [11] ProgErr.MissingRequiredSignature (by decide),
   C6_no_partial_write_on_validation_error.2.1 dOne [9] sampleIni samplePda
      [10] 0 [11] ProgErr.InvalidRating (by decide) (by decide),
   C6_no_partial_write_on_validation_error.2.2 dOne [9] sampleIni samplePda
      [10] 4 [11] storedRec (by decide) (by decide) (by decide) (by decide)⟩

/-- C7: a successful Update rewrites the slot with the stored record whose
rating and description are replaced; the initialization flag, owner and
title of the written record are exactly those of the record deserialized
from the slot. -/
theorem C7_update_frame (derive : DeriveFn) (pid : Bytes)
    (ini pda : AccountInfo) (t : Bytes) (rat : Nat) (d : Bytes)
    (h : (update_movie_review derive pid ini pda t rat d).2 = none) :
    ∃ stored : MovieAccountState,
      MovieAccountState.try_from_slice pda.data = some stored ∧
      update_movie_review derive pid ini pda t rat d =
        (overwrite (MovieAccountState.serialize
          { stored with rating := rat, description := d }) pda.data, none) ∧
      ({ stored with rating := rat, description := d }
        : MovieAccountState).is_initialized = stored.is_initialized ∧
      ({ stored with rating := rat, description := d }
        : MovieAccountState).reviewer = stored.reviewer ∧
      ({ stored with rating := rat, description := d }
        : MovieAccountState).title = stored.title := by
  obtain ⟨stored, hstored, -, -, -, -, -, -, -, -, hval⟩ :=
    update_success_inv derive pid ini pda t rat d h
  exact ⟨stored, hstored, hval, rfl, rfl, rfl⟩

/-- Witness for C7 at a concrete successful update. -/
theorem C7_update_frame_witness :
    ∃ stored : MovieAccountState,
      MovieAccountState.try_from_slice samplePda.data = some stored ∧
      update_movie_review dOne [9] sampleIni samplePda [10] 4 [11] =
        (overwrite (MovieAccountState.serialize
          { stored with rating := 4, description := [11] })
          samplePda.data, none) ∧
      ({ stored with rating := 4, description := [11] }
        : MovieAccountState).is_initialized = stored.is_initialized ∧
      ({ stored with rating := 4, description := [11] }
        : MovieAccountState).reviewer = stored.reviewer ∧
      ({ stored with rating := 4, description := [11] }
        : MovieAccountState).title = stored.title :=
  C7_update_frame dOne [9] sampleIni samplePda [10] 4 [11] (by decide)

/-- C8: Update derives the expected address from the stored title: requests
differing only in their title argument agree on whether `InvalidPDA`
(AddressMismatch) is raised; `InvalidPDA` is raised exactly when the address
derived from the caller key and the stored title differs from the supplied
slot's address (after the owner, signer and decode steps pass); and a
successful Update writes back the stored title, not the request's. -/
theorem C8_update_address_from_stored_title (derive : DeriveFn) (pid : Bytes)
    (ini pda : AccountInfo) (t1 t2 : Bytes) (rat : Nat) (d : Bytes) :
    ((update_movie_review derive pid ini pda t1 rat d).2 =
        some ProgErr.InvalidPDA ↔
      (update_movie_review derive pid ini pda t2 rat d).2 =
        some ProgErr.InvalidPDA) ∧
    ((update_movie_review derive pid ini pda t1 rat d).2 =
        some ProgErr.InvalidPDA ↔
      (pda.owner = pid ∧ ini.is_signer = true ∧
        ∃ stored, MovieAccountState.try_from_slice pda.data = some stored ∧
          derive ini.key stored.title ≠ pda.key)) ∧
    (∀ stored : MovieAccountState,
      MovieAccountState.try_from_slice pda.data = some stored →
      (update_movie_review derive pid ini pda t1 rat d).2 = none →
      (update_movie_review derive pid ini pda t1 rat d).1 =
        overwrite (MovieAccountState.serialize
          { stored with rating := rat, description := d }) pda.data) := by
  refine ⟨?_, update_invalidPDA_iff derive pid ini pda t1 rat d, ?_⟩
  · rw [update_invalidPDA_iff derive pid ini pda t1 rat d,
      update_invalidPDA_iff derive pid ini pda t2 rat d]
  · intro stored htf h
    obtain ⟨stored2, hstored2, -, -, -, -, -, -, -, -, hval⟩ :=
      update_success_inv derive pid ini pda t1 rat d h
    rw [htf] at hstored2
    cases hstored2
    exact congrArg Prod.fst hval

/-- Witness for C8: a concrete Update whose request title differs from the
stored title still writes back the stored title. -/
theorem C8_update_address_from_stored_title_witness :
    (update_movie_review dOne [9] sampleIni samplePda [99] 4 [11]).1 =
      overwrite (MovieAccountState.serialize
        { storedRec with rating := 4, description := [11] })
        samplePda.data :=
  (C8_update_address_from_stored_title dOne [9] sampleIni samplePda
      [99] [99] 4 [11]).2.2 storedRec (by decide) (by decide)

/-- C9: Create on a non-empty slot that decodes to an uninitialized record
raises no error from the slot inspection: when the signer, address,
rating and size checks pass, the operation succeeds and overwrites the slot
with the new record, and the result does not depend on the slot's
owning-program field (no ownership re-check). -/
theorem C9_create_overwrites_uninitialized (derive : DeriveFn) (pid : Bytes)
    (ini pda : AccountInfo) (t : Bytes) (rat : Nat) (d : Bytes)
    (r : MovieAccountState)
    (hs : ini.is_signer = true)
    (hp : derive ini.key t = pda.key)
    (hdec : MovieAccountState.try_from_slice pda.data = some r)
    (hinit : r.is_initialized = false)
    (h1 : 1 ≤ rat) (h5 : rat ≤ 5)
    (hsz : MovieAccountState.get_account_size t d ≤ 1000) :
    pda.data ≠ [] ∧
    (add_movie_review derive pid ini pda t rat d).2 = none ∧
    (add_movie_review derive pid ini pda t rat d).1 =
      MovieAccountState.serialize ⟨true, ini.key, rat, t, d⟩ ++
        List.replicate (account_len -
          (MovieAccountState.serialize ⟨true, ini.key, rat, t, d⟩).length)
          0 ∧
    (∀ own : Bytes,
      add_movie_review derive pid ini ⟨pda.key, pda.is_signer, own, pda.data⟩
          t rat d =
        add_movie_review derive pid ini pda t rat d) := by
  have hne : pda.data ≠ [] := by
    intro hnil
    rw [hnil, try_from_slice_nil] at hdec
    cases hdec
  have herr : (add_movie_review derive pid ini pda t rat d).2 = none := by
    rw [add_snd_eq_spec]
    simp only [createSpecError, createSpecLateError]
    have hr : 1 ≤ rat ∧ rat ≤ 5 := ⟨h1, h5⟩
    simp [hs, hp, hne, hdec, hinit, hr]
    omega
  refine ⟨hne, herr, ?_, ?_⟩
  · rcases add_cases derive pid ini pda t rat d with ⟨e, he⟩ | hval
    · rw [he] at herr
      simp at herr
    · rw [hval]
  · intro own
    rfl

/-- Witness for C9: Create on a concrete slot holding an uninitialized
record succeeds. -/
theorem C9_create_overwrites_uninitialized_witness :
    uninitPda.data ≠ [] ∧
    (add_movie_review dOne [9] sampleIni uninitPda [10] 4 [11]).2 = none ∧
    (add_movie_review dOne [9] sampleIni uninitPda [10] 4 [11]).1 =
      MovieAccountState.serialize ⟨true, sampleIni.key, 4, [10], [11]⟩ ++
        List.replicate (account_len -
          (MovieAccountState.serialize
            ⟨true, sampleIni.key, 4, [10], [11]⟩).length) 0 ∧
    (∀ own : Bytes,
      add_movie_review dOne [9] sampleIni
          ⟨uninitPda.key, uninitPda.is_signer, own, uninitPda.data⟩
          [10] 4 [11] =
        add_movie_review dOne [9] sampleIni uninitPda [10] 4 [11]) :=
  C9_create_overwrites_uninitialized dOne [9] sampleIni uninitPda [10] 4 [11]
    uninitRec (by decide) (by decide) (by decide) (by decide) (by decide)
    (by decide) (by decide)

/-- C10: every slot content written by a successful Create or Update is the
serialization of a record with `is_initialized = true` and rating in
`[1,5]` (padded into the fixed slot for Create, overwriting the front for
Update); consequently along any sequence of successful operations from a
slot of at most the fixed capacity, a good slot (any record it decodes to
is initialized with rating in `[1,5]`) stays good. -/
theorem C10_write_invariant :
    (∀ (derive : DeriveFn) (pid : Bytes) (ini pda : AccountInfo)
        (t : Bytes) (rat : Nat) (d : Bytes) (d' : Bytes),
      add_movie_review derive pid ini pda t rat d = (d', none) →
      ∃ rec : MovieAccountState,
        d' = MovieAccountState.serialize rec ++
          List.replicate (account_len -
            (MovieAccountState.serialize rec).length) 0 ∧
        rec.is_initialized = true ∧ 1 ≤ rec.rating ∧ rec.rating ≤ 5) ∧
    (∀ (derive : DeriveFn) (pid : Bytes) (ini pda : AccountInfo)
        (t : Bytes) (rat : Nat) (d : Bytes) (d' : Bytes),
      update_movie_review derive pid ini pda t rat d = (d', none) →
      ∃ rec : MovieAccountState,
        d' = overwrite (MovieAccountState.serialize rec) pda.data ∧
        rec.is_initialized = true ∧ 1 ≤ rec.rating ∧ rec.rating ≤ 5) ∧
    (∀ d₀ d₁ : Bytes, Reach d₀ d₁ → d₀.length ≤ 1000 → slotGood d₀ →
      d₁.length ≤ 1000 ∧ slotGood d₁) := by
  refine ⟨?_, ?_, ?_⟩
  · intro derive pid ini pda t rat d d' hadd
    have h2 : (add_movie_review derive pid ini pda t rat d).2 = none := by
      rw [hadd]
    obtain ⟨-, -, h3, h4, -, hval⟩ :=
      add_success_inv derive pid ini pda t rat d h2
    rw [hadd] at hval
    exact ⟨⟨true, ini.key, rat, t, d⟩, congrArg Prod.fst hval, rfl, h3, h4⟩
  · intro derive pid ini pda t rat d d' hupd
    have h2 : (update_movie_review derive pid ini pda t rat d).2 = none := by
      rw [hupd]
    obtain ⟨stored, -, -, -, -, hinit, h3, h4, -, -, hval⟩ :=
      update_success_inv derive pid ini pda t rat d h2
    rw [hupd] at hval
    exact ⟨{ stored with rating := rat, description := d },
      congrArg Prod.fst hval, by simpa using hinit, h3, h4⟩
  · intro d₀ d₁ hreach
    induction hreach with
    | refl => exact fun h1 h2 => ⟨h1, h2⟩
    | createStep d' derive pid ini pda t rat desc hre hkey hadd ih =>
      intro hlen hgood
      have hc := slotGood_create derive pid ini pda t rat desc d' hkey hadd
      exact ⟨by omega, hc.1⟩
    | updateStep d' derive pid ini pda t rat desc hre hkey hupd ih =>
      intro hlen hgood
      obtain ⟨hl, -⟩ := ih hlen hgood
      have hu := slotGood_update derive pid ini pda t rat desc d' hl hupd
      exact ⟨by omega, hu.1⟩


set_option maxRecDepth 8000 in
/-- Witness for C10: one concrete successful Create from an empty slot
reaches a good slot of the fixed capacity. -/
theorem C10_write_invariant_witness :
    createdBytes.length ≤ 1000 ∧ slotGood createdBytes :=
  C10_write_invariant.2.2 [] createdBytes
    (Reach.createStep [] createdBytes dOne [9] sampleIni pdaEmpty [10] 4 [11]
      (Reach.refl []) (by decide) (by decide))
    (by decide) (fun _ hr => Option.noConfusion hr)

end MovieReview
